import Mathlib

/-!
Verification development for the deviceplane agent core.

The definitions below are a shallow embedding of the Go sources:
- `pkg/agent/supervisor` Reporter (application-status, service-status and
  service-state reporter loops),
- `pkg/agent/agent.go` (Initialize / register, runBundleApplier,
  downloadLatestBundle, mergeBundle),
- `pkg/agent/validator/customcommands` (Validate).

Go maps are embedded as association lists (`List (String × α)`) with a
`mapLookup` / `mapInsert` pair; the list order stands for the (unspecified)
Go map iteration order.  Publish calls that can fail are parametrised by
boolean environment choices.  JSON (un)marshalling of the bundle bytes is
embedded by carrying the two possible parse outcomes of the payload.
-/

namespace Deviceplane

/-- models.SetDeviceServiceStatusRequest: the service-status record,
holding the current release id observed for the service. -/
structure SetDeviceServiceStatusRequest where
  CurrentReleaseID : String
deriving DecidableEq, Repr

/-- models.SetDeviceServiceStateRequest: the service-state record,
holding the container state and the error message. -/
structure SetDeviceServiceStateRequest where
  State : String
  ErrorMessage : String
deriving DecidableEq, Repr

/-- models.Service: the declarative container spec.  Only the fields the
embedded code reads are carried (image for the image validator, command and
entrypoint for the custom-commands validator). -/
structure Service where
  Image : String
  Command : List String
  Entrypoint : List String
deriving DecidableEq, Repr

/-- Lookup in a Go map embedded as an association list. -/
def mapLookup {α : Type} : List (String × α) → String → Option α
  | [], _ => none
  | (k, v) :: rest, key => if k = key then some v else mapLookup rest key

/-- Assignment `m[k] = v` in a Go map embedded as an association list:
replaces the binding for `k` if present, otherwise appends it. -/
def mapInsert {α : Type} : List (String × α) → String → α → List (String × α)
  | [], key, v => [(key, v)]
  | (k, w) :: rest, key, v =>
    if k = key then (key, v) :: rest else (k, w) :: mapInsert rest key v

/-- supervisor.Reporter: the state held under the reporter's RW-lock. -/
structure Reporter where
  applicationID : String
  desiredApplicationRelease : String
  desiredApplicationServiceNames : List String
  reportedApplicationRelease : String
  serviceStatuses : List (String × SetDeviceServiceStatusRequest)
  reportedServiceStatuses : List (String × SetDeviceServiceStatusRequest)
  serviceStates : List (String × SetDeviceServiceStateRequest)
  reportedServiceStates : List (String × SetDeviceServiceStateRequest)
deriving DecidableEq, Repr

/-- supervisor.NewReporter: all maps empty, all strings zero-valued. -/
def NewReporter (applicationID : String) : Reporter :=
  { applicationID := applicationID
    desiredApplicationRelease := ""
    desiredApplicationServiceNames := []
    reportedApplicationRelease := ""
    serviceStatuses := []
    reportedServiceStatuses := []
    serviceStates := []
    reportedServiceStates := [] }

/-- One upstream publication attempt performed by a reporter loop, with the
arguments of the call and whether the call returned nil. -/
inductive ReportEvent where
  | applicationStatus (applicationID currentRelease : String) (ok : Bool)
  | serviceStatus (applicationID service : String)
      (req : SetDeviceServiceStatusRequest) (ok : Bool)
  | serviceState (applicationID service : String)
      (req : SetDeviceServiceStateRequest) (ok : Bool)
deriving DecidableEq, Repr

/-- Reporter.SetDesiredApplication: store the release and the key set of the
application config under the write-lock. -/
def Reporter.SetDesiredApplication (r : Reporter) (release : String)
    (applicationConfig : List (String × Service)) : Reporter :=
  { r with
    desiredApplicationRelease := release
    desiredApplicationServiceNames := applicationConfig.map Prod.fst }

/-- Reporter.SetServiceStatus: store one observed service status under the
write-lock. -/
def Reporter.SetServiceStatus (r : Reporter) (serviceName : String)
    (status : SetDeviceServiceStatusRequest) : Reporter :=
  { r with serviceStatuses := mapInsert r.serviceStatuses serviceName status }

/-- Reporter.SetServiceState: store one observed service state under the
write-lock. -/
def Reporter.SetServiceState (r : Reporter) (serviceName : String)
    (state : SetDeviceServiceStateRequest) : Reporter :=
  { r with serviceStates := mapInsert r.serviceStates serviceName state }

/-- The per-service part of the gate checked by
Reporter.applicationStatusReporter under the read-lock: every desired
service name has an observed status whose CurrentReleaseID equals the
release to report. -/
def applicationStatusGate (r : Reporter) : Bool :=
  r.desiredApplicationServiceNames.all fun serviceName =>
    match mapLookup r.serviceStatuses serviceName with
    | some status => status.CurrentReleaseID == r.desiredApplicationRelease
    | none => false

/-- One iteration of Reporter.applicationStatusReporter.  If the desired
release equals the reported one, or some desired service lacks an observed
status at that release, the iteration jumps to cont and publishes nothing.
Otherwise reportApplicationStatus is invoked; `publishOk` is the
environment's choice of whether that call succeeds, and only on success is
reportedApplicationRelease updated. -/
def applicationStatusTick (r : Reporter) (publishOk : Bool) :
    Reporter × List ReportEvent :=
  let releaseToReport := r.desiredApplicationRelease
  if releaseToReport = r.reportedApplicationRelease then
    (r, [])
  else if applicationStatusGate r then
    if publishOk then
      ({ r with reportedApplicationRelease := releaseToReport },
       [ReportEvent.applicationStatus r.applicationID releaseToReport true])
    else
      (r, [ReportEvent.applicationStatus r.applicationID releaseToReport false])
  else
    (r, [])

/-- The diff computed by Reporter.serviceStatusReporter under the read-lock:
the observed statuses whose service is absent from the reported map or whose
CurrentReleaseID differs from the reported one. -/
def serviceStatusDiff (r : Reporter) :
    List (String × SetDeviceServiceStatusRequest) :=
  r.serviceStatuses.filter fun p =>
    match mapLookup r.reportedServiceStatuses p.1 with
    | some reportedStatus => reportedStatus.CurrentReleaseID != p.2.CurrentReleaseID
    | none => true

/-- The publish loop of Reporter.serviceStatusReporter over the diff:
attempts each publication in order; the first failing call escapes via
goto cont, abandoning the rest of the sweep.  `oks` is the environment's
list of call outcomes (exhausted entries count as success).  Returns the
attempted publications and whether the loop ran to completion. -/
def publishServiceStatuses (applicationID : String) :
    List (String × SetDeviceServiceStatusRequest) → List Bool →
    List ReportEvent × Bool
  | [], _ => ([], true)
  | (serviceName, status) :: rest, oks =>
    if oks.headD true then
      let (events, completed) := publishServiceStatuses applicationID rest oks.tail
      (ReportEvent.serviceStatus applicationID serviceName status true :: events,
       completed)
    else
      ([ReportEvent.serviceStatus applicationID serviceName status false], false)

/-- One iteration of Reporter.serviceStatusReporter: compute diff and the
full snapshot copy under the read-lock, publish the diff, and commit
`reportedServiceStatuses = copy` only when the publish loop ran to
completion — a failing call jumps to cont, past the commit. -/
def serviceStatusTick (r : Reporter) (oks : List Bool) :
    Reporter × List ReportEvent :=
  let diff := serviceStatusDiff r
  let copy := r.serviceStatuses
  let (events, completed) := publishServiceStatuses r.applicationID diff oks
  if completed then
    ({ r with reportedServiceStatuses := copy }, events)
  else
    (r, events)

/-- The diff computed by Reporter.serviceStateReporter under the read-lock:
the observed states whose service is absent from the reported map or whose
(State, ErrorMessage) pair differs from the reported one. -/
def serviceStateDiff (r : Reporter) :
    List (String × SetDeviceServiceStateRequest) :=
  r.serviceStates.filter fun p =>
    match mapLookup r.reportedServiceStates p.1 with
    | some reportedState =>
      reportedState.State != p.2.State || reportedState.ErrorMessage != p.2.ErrorMessage
    | none => true

/-- The publish loop of Reporter.serviceStateReporter over the diff, with
the same goto cont escape on the first failing call. -/
def publishServiceStates (applicationID : String) :
    List (String × SetDeviceServiceStateRequest) → List Bool →
    List ReportEvent × Bool
  | [], _ => ([], true)
  | (serviceName, state) :: rest, oks =>
    if oks.headD true then
      let (events, completed) := publishServiceStates applicationID rest oks.tail
      (ReportEvent.serviceState applicationID serviceName state true :: events,
       completed)
    else
      ([ReportEvent.serviceState applicationID serviceName state false], false)

/-- One iteration of Reporter.serviceStateReporter, with the same
commit-on-complete-sweep structure as the service-status loop. -/
def serviceStateTick (r : Reporter) (oks : List Bool) :
    Reporter × List ReportEvent :=
  let diff := serviceStateDiff r
  let copy := r.serviceStates
  let (events, completed) := publishServiceStates r.applicationID diff oks
  if completed then
    ({ r with reportedServiceStates := copy }, events)
  else
    (r, events)

/-- An interleaving step of the Reporter: either a setter called by the
supervisor, or one iteration of one of the three reporter loops together
with the environment's choice of publish outcomes. -/
inductive ReporterAction where
  | setDesiredApplication (release : String)
      (applicationConfig : List (String × Service))
  | setServiceStatus (serviceName : String)
      (status : SetDeviceServiceStatusRequest)
  | setServiceState (serviceName : String)
      (state : SetDeviceServiceStateRequest)
  | appStatusTick (publishOk : Bool)
  | svcStatusTick (oks : List Bool)
  | svcStateTick (oks : List Bool)
deriving DecidableEq, Repr

/-- Apply one interleaving step to the Reporter state, returning the
publications issued during the step. -/
def reporterStep (r : Reporter) : ReporterAction → Reporter × List ReportEvent
  | ReporterAction.setDesiredApplication release applicationConfig =>
    (r.SetDesiredApplication release applicationConfig, [])
  | ReporterAction.setServiceStatus serviceName status =>
    (r.SetServiceStatus serviceName status, [])
  | ReporterAction.setServiceState serviceName state =>
    (r.SetServiceState serviceName state, [])
  | ReporterAction.appStatusTick publishOk => applicationStatusTick r publishOk
  | ReporterAction.svcStatusTick oks => serviceStatusTick r oks
  | ReporterAction.svcStateTick oks => serviceStateTick r oks

/-- Run a whole interleaving of Reporter steps, concatenating the
publications in the order they are issued. -/
def reporterRun (r : Reporter) : List ReporterAction → Reporter × List ReportEvent
  | [] => (r, [])
  | act :: rest =>
    let (r1, events1) := reporterStep r act
    let (r2, events2) := reporterRun r1 rest
    (r2, events1 ++ events2)

/-- models.Application: an element of the bundle's application list.  Only
the identity is carried; the bundle applier forwards applications opaquely. -/
structure Application where
  ID : String
deriving DecidableEq, Repr

/-- models.Bundle: the fields of the bundle consumed by the embedded agent
code (the application list passed to Supervisor.Set and the desired agent
version passed to the updater). -/
structure Bundle where
  Applications : List Application
  DesiredAgentVersion : String
deriving DecidableEq, Repr

/-- The zero value of models.Bundle, as left by `var bundle models.Bundle`. -/
def zeroBundle : Bundle :=
  { Applications := [], DesiredAgentVersion := "" }

/-- The downloaded payload, embedded by the outcomes of its two JSON parse
attempts: `fullParse` is the result of unmarshalling into models.Bundle, and
`minimalParse` the result of unmarshalling into the minimal
desiredAgentVersion projection. -/
structure BundleBytes where
  fullParse : Option Bundle
  minimalParse : Option String
deriving DecidableEq, Repr

/-- agent.mergeBundle: try the full parse; on failure try the minimal
projection; on its failure return nil.  When only the minimal projection
parses, start from the previous bundle if non-nil (else the zero value) and
overwrite DesiredAgentVersion. -/
def mergeBundle (oldBundle : Option Bundle) (bundleBytes : BundleBytes) :
    Option Bundle :=
  match bundleBytes.fullParse with
  | some bundle => some bundle
  | none =>
    match bundleBytes.minimalParse with
    | none => none
    | some v =>
      let bundle := match oldBundle with
        | some old => old
        | none => zeroBundle
      some { bundle with DesiredAgentVersion := v }

/-- The on-disk bundle file.  Modelled from the spec: the writer,
pkg/file.WriteFileAtomic, is not among the sources; per the spec it writes
temp-then-rename so the file either keeps its previous contents or holds the
whole new serialization.  `holds none` is the file holding the text null,
the JSON serialization of a nil models.Bundle pointer. -/
inductive BundleFile where
  | absent
  | holds (contents : Option Bundle)
deriving DecidableEq, Repr

/-- The environment of one bundle-applier cycle: the result of
client.GetBundleBytes (none is a network error) and whether the atomic
write of the bundle file succeeds. -/
structure CycleInput where
  getBundleBytes : Option BundleBytes
  writeOk : Bool
deriving DecidableEq, Repr

/-- Agent.downloadLatestBundle: fetch the bundle bytes (on error return nil,
file untouched), merge with the previous bundle, marshal the result — for a
nil merge result the marshaller emits null — and write it atomically to the
bundle file (on write error return nil, file untouched).  Returns the new
in-memory bundle and the new file contents. -/
def downloadLatestBundle (oldBundle : Option Bundle) (input : CycleInput)
    (file : BundleFile) : Option Bundle × BundleFile :=
  match input.getBundleBytes with
  | none => (none, file)
  | some bundleBytes =>
    let bundle := mergeBundle oldBundle bundleBytes
    if input.writeOk then (bundle, BundleFile.holds bundle)
    else (none, file)

/-- A downstream dispatch performed by Agent.runBundleApplier after a cycle
accepts a bundle. -/
inductive AgentEvent where
  | supervisorSet (bundle : Bundle)
  | garbageCollectorSetBundle (bundle : Bundle)
  | updaterSetDesiredVersion (version : String)
  | metricsPusherSetBundle (bundle : Bundle)
deriving DecidableEq, Repr

/-- One iteration of the loop in Agent.runBundleApplier: download the latest
bundle, overwriting the loop's bundle variable with the result (nil on any
failure), and when it is non-nil dispatch it to the supervisor, the status
garbage collector, the updater and the metrics pusher, in that order. -/
def runBundleApplierCycle (bundle : Option Bundle) (input : CycleInput)
    (file : BundleFile) : Option Bundle × BundleFile × List AgentEvent :=
  let (newBundle, newFile) := downloadLatestBundle bundle input file
  match newBundle with
  | some b =>
    (some b, newFile,
     [AgentEvent.supervisorSet b,
      AgentEvent.garbageCollectorSetBundle b,
      AgentEvent.updaterSetDesiredVersion b.DesiredAgentVersion,
      AgentEvent.metricsPusherSetBundle b])
  | none => (none, newFile, [])

/-- The loop of Agent.runBundleApplier over a sequence of cycle
environments, threading the in-memory bundle variable and the bundle file
and concatenating the downstream dispatches. -/
def runBundleApplier (bundle : Option Bundle) (file : BundleFile) :
    List CycleInput → Option Bundle × BundleFile × List AgentEvent
  | [] => (bundle, file, [])
  | input :: rest =>
    let (b1, f1, events1) := runBundleApplierCycle bundle input file
    let (b2, f2, events2) := runBundleApplier b1 f1 rest
    (b2, f2, events1 ++ events2)

/-- The two credential files under the agent's state directory.  Modelled
from the spec: the file helpers (pkg/file.WriteFileAtomic and the reads) are
not among the sources; per the spec writes are atomic and reads return the
exact stored contents. -/
structure CredentialFiles where
  accessKeyFile : Option String
  deviceIDFile : Option String
deriving DecidableEq, Repr

/-- models.RegisterDeviceResponse: the fields Agent.register persists. -/
structure RegisterDeviceResponse where
  DeviceID : String
  DeviceAccessKeyValue : String
deriving DecidableEq, Repr

/-- An APIClient call performed during Agent.Initialize.  The registerDevice
event carries the deadline, in nanoseconds, of the context it is given. -/
inductive InitEvent where
  | registerDevice (registrationToken : String) (deadline : Nat)
  | setAccessKey (accessKey : String)
  | setDeviceID (deviceID : String)
deriving DecidableEq, Repr

/-- time.Minute in nanoseconds, the deadline Agent.register passes to
dpcontext.New. -/
def timeMinute : Nat := 60000000000

/-- Agent.register: call client.RegisterDevice with the registration token
under a one-minute deadline (`registerResult` is the environment's outcome,
none being an error), then atomically persist the returned access key and
device id. -/
def Agent.register (files : CredentialFiles) (registrationToken : String)
    (registerResult : Option RegisterDeviceResponse) :
    Except String (CredentialFiles × List InitEvent) :=
  match registerResult with
  | none => Except.error "failed to register device"
  | some resp =>
    Except.ok
      ({ files with
          accessKeyFile := some resp.DeviceAccessKeyValue
          deviceIDFile := some resp.DeviceID },
       [InitEvent.registerDevice registrationToken timeMinute])

/-- Agent.Initialize up to the credential installation: if the access-key
file exists skip registration, otherwise register; then read both files and
install their exact contents via client.SetAccessKey and client.SetDeviceID.
(The source then binds the local listener, outside this embedding.) -/
def Agent.Initialize (files : CredentialFiles) (registrationToken : String)
    (registerResult : Option RegisterDeviceResponse) :
    Except String (CredentialFiles × List InitEvent) :=
  let afterRegister : Except String (CredentialFiles × List InitEvent) :=
    match files.accessKeyFile with
    | some _ => Except.ok (files, [])
    | none => Agent.register files registrationToken registerResult
  match afterRegister with
  | Except.error e => Except.error e
  | Except.ok (files1, events) =>
    match files1.accessKeyFile with
    | none => Except.error "failed to read access key"
    | some accessKeyBytes =>
      match files1.deviceIDFile with
      | none => Except.error "failed to read device ID"
      | some deviceIDBytes =>
        Except.ok
          (files1,
           events ++
             [InitEvent.setAccessKey accessKeyBytes,
              InitEvent.setDeviceID deviceIDBytes])

namespace customcommands

/-- validator/customcommands.ErrCustomCommandsAreDisabled. -/
def ErrCustomCommandsAreDisabled : String :=
  "custom commands are disabled on this device"

/-- variables.Interface as consumed by the custom-commands validator.
Modelled from the spec: the variables implementation is not among the
sources; GetDisableCustomCommands returns the current toggle value. -/
structure Variables where
  disableCustomCommands : Bool
deriving DecidableEq, Repr

/-- variables.Interface.GetDisableCustomCommands. -/
def Variables.GetDisableCustomCommands (v : Variables) : Bool :=
  v.disableCustomCommands

/-- validator/customcommands.Validator. -/
structure Validator where
  vars : Variables
deriving DecidableEq, Repr

/-- validator/customcommands.Validator.Validate: when custom commands are
disabled and the service has a non-empty command or entrypoint, return
ErrCustomCommandsAreDisabled; otherwise return nil (none). -/
def Validator.Validate (i : Validator) (s : Service) : Option String :=
  if i.vars.GetDisableCustomCommands then
    if s.Command.length ≠ 0 ∨ s.Entrypoint.length ≠ 0 then
      some ErrCustomCommandsAreDisabled
    else none
  else none

end customcommands

/-- Predicate picking out successful service-status publications among the
reporter's events. -/
def isSuccessfulServiceStatusPublication : ReportEvent → Bool
  | ReportEvent.serviceStatus _ _ _ ok => ok
  | _ => false

/-- A concrete interleaving: the supervisor sets the desired application
and one observed service status, then the application-status loop ticks —
before the service-status loop has ever run. -/
def quorumTrace : List ReporterAction :=
  [ReporterAction.setDesiredApplication "R1"
      [("s1", { Image := "alpine", Command := [], Entrypoint := [] })],
   ReporterAction.setServiceStatus "s1" { CurrentReleaseID := "R1" },
   ReporterAction.appStatusTick true]

/-- A concrete reporter state in which the application-status gate holds
for release R1 with one desired service. -/
def gateReporterExample : Reporter :=
  { NewReporter "a1" with
      desiredApplicationRelease := "R1"
      desiredApplicationServiceNames := ["s1"]
      serviceStatuses := [("s1", { CurrentReleaseID := "R1" })] }

/-- A concrete reporter state with two unreported service statuses and one
unreported service state, used to exercise the sweep commits. -/
def svcReporterExample : Reporter :=
  { NewReporter "a1" with
      serviceStatuses := [("a", { CurrentReleaseID := "R1" }),
                          ("b", { CurrentReleaseID := "R1" })]
      serviceStates := [("a", { State := "running", ErrorMessage := "" })] }

/-! ## Theorems -/

/-- The application-status gate holds exactly when every desired service
name has an observed status at the desired release. -/
theorem applicationStatusGate_iff (r : Reporter) :
    applicationStatusGate r = true ↔
      ∀ name ∈ r.desiredApplicationServiceNames,
        ∃ status, mapLookup r.serviceStatuses name = some status ∧
          status.CurrentReleaseID = r.desiredApplicationRelease := by
  unfold applicationStatusGate
  rw [List.all_eq_true]
  constructor
  · intro h name hname
    have hn := h name hname
    cases hl : mapLookup r.serviceStatuses name with
    | none => rw [hl] at hn; simp at hn
    | some status =>
      rw [hl] at hn
      simp only [beq_iff_eq] at hn
      exact ⟨status, rfl, hn⟩
  · intro h name hname
    obtain ⟨status, hl, he⟩ := h name hname
    rw [hl]
    simp [he]

/-- An application-status publication only leaves applicationStatusTick
when the desired release differs from the reported one and the gate holds,
and it carries the reporter's application id and the desired release. -/
theorem applicationStatusTick_mem {r : Reporter} {publishOk : Bool}
    {a R : String} {ok : Bool}
    (h : ReportEvent.applicationStatus a R ok ∈
      (applicationStatusTick r publishOk).2) :
    a = r.applicationID ∧ R = r.desiredApplicationRelease ∧
      R ≠ r.reportedApplicationRelease ∧ applicationStatusGate r = true := by
  unfold applicationStatusTick at h
  by_cases h1 : r.desiredApplicationRelease = r.reportedApplicationRelease
  · simp [h1] at h
  · by_cases h2 : applicationStatusGate r = true
    · cases publishOk <;> simp [h1, h2] at h <;>
        exact ⟨h.1, h.2.1, by rw [h.2.1]; exact fun hc => h1 hc, h2⟩
    · simp [h1, h2] at h

/-- Claim C1: the application-status loop invokes reportApplicationStatus
with release R only when the gate held at the preceding check — R differed
from reportedApplicationRelease and every desired service name had an
observed status with CurrentReleaseID equal to R — and a tick on which the
gate fails publishes nothing and leaves the state unchanged. -/
theorem applicationStatusReporter_quorum (r : Reporter) (publishOk : Bool) :
    (∀ R ok,
      ReportEvent.applicationStatus r.applicationID R ok ∈
          (applicationStatusTick r publishOk).2 →
      R ≠ r.reportedApplicationRelease ∧
        ∀ name ∈ r.desiredApplicationServiceNames,
          ∃ status, mapLookup r.serviceStatuses name = some status ∧
            status.CurrentReleaseID = R)
    ∧ (r.desiredApplicationRelease = r.reportedApplicationRelease ∨
        applicationStatusGate r = false →
      applicationStatusTick r publishOk = (r, [])) := by
  constructor
  · intro R ok h
    obtain ⟨-, hR, hne, hgate⟩ := applicationStatusTick_mem h
    subst hR
    exact ⟨hne, (applicationStatusGate_iff r).1 hgate⟩
  · intro h
    unfold applicationStatusTick
    by_cases h1 : r.desiredApplicationRelease = r.reportedApplicationRelease
    · simp [h1]
    · rcases h with h | h
      · exact absurd h h1
      · simp [h1, h]

/-- Witness for C1: at a concrete gate-satisfying state the tick publishes
R1 and the gate conclusion holds, and at the initial state (gate failing:
desired equals reported) the tick publishes nothing. -/
theorem applicationStatusReporter_quorum_witness :
    ("R1" ≠ gateReporterExample.reportedApplicationRelease ∧
      ∀ name ∈ gateReporterExample.desiredApplicationServiceNames,
        ∃ status, mapLookup gateReporterExample.serviceStatuses name = some status ∧
          status.CurrentReleaseID = "R1")
    ∧ applicationStatusTick (NewReporter "a1") true = (NewReporter "a1", []) := by
  constructor
  · exact (applicationStatusReporter_quorum gateReporterExample true).1 "R1" true
      (by decide)
  · exact (applicationStatusReporter_quorum (NewReporter "a1") true).2
      (Or.inl rfl)

/-- Every event of the service-status publish loop is a serviceStatus
publication of a member of the published list. -/
theorem publishServiceStatuses_mem {a : String}
    {l : List (String × SetDeviceServiceStatusRequest)} {oks : List Bool}
    {e : ReportEvent} (h : e ∈ (publishServiceStatuses a l oks).1) :
    ∃ p ∈ l, ∃ ok, e = ReportEvent.serviceStatus a p.1 p.2 ok := by
  induction l generalizing oks with
  | nil => simp [publishServiceStatuses] at h
  | cons hd tl ih =>
    cases hd with
    | mk n st =>
      unfold publishServiceStatuses at h
      by_cases hok : oks.headD true = true
      · rw [if_pos hok] at h
        cases hrec : publishServiceStatuses a tl oks.tail with
        | mk evs comp =>
          rw [hrec] at h
          simp only [List.mem_cons] at h
          rcases h with h | h
          · exact ⟨(n, st), List.mem_cons_self _ _, true, h⟩
          · obtain ⟨p, hp, ok, he⟩ := ih (show e ∈ (publishServiceStatuses a tl oks.tail).1 by rw [hrec]; exact h)
            exact ⟨p, List.mem_cons_of_mem _ hp, ok, he⟩
      · rw [if_neg hok] at h
        simp only [List.mem_singleton] at h
        exact ⟨(n, st), List.mem_cons_self _ _, false, h⟩

/-- Every event of the service-state publish loop is a serviceState
publication of a member of the published list. -/
theorem publishServiceStates_mem {a : String}
    {l : List (String × SetDeviceServiceStateRequest)} {oks : List Bool}
    {e : ReportEvent} (h : e ∈ (publishServiceStates a l oks).1) :
    ∃ p ∈ l, ∃ ok, e = ReportEvent.serviceState a p.1 p.2 ok := by
  induction l generalizing oks with
  | nil => simp [publishServiceStates] at h
  | cons hd tl ih =>
    cases hd with
    | mk n st =>
      unfold publishServiceStates at h
      by_cases hok : oks.headD true = true
      · rw [if_pos hok] at h
        cases hrec : publishServiceStates a tl oks.tail with
        | mk evs comp =>
          rw [hrec] at h
          simp only [List.mem_cons] at h
          rcases h with h | h
          · exact ⟨(n, st), List.mem_cons_self _ _, true, h⟩
          · obtain ⟨p, hp, ok, he⟩ := ih (show e ∈ (publishServiceStates a tl oks.tail).1 by rw [hrec]; exact h)
            exact ⟨p, List.mem_cons_of_mem _ hp, ok, he⟩
      · rw [if_neg hok] at h
        simp only [List.mem_singleton] at h
        exact ⟨(n, st), List.mem_cons_self _ _, false, h⟩

/-- With no failure injected, the service-status publish loop publishes the
whole list, in order, successfully, and completes. -/
theorem publishServiceStatuses_nilOks (a : String)
    (l : List (String × SetDeviceServiceStatusRequest)) :
    publishServiceStatuses a l [] =
      (l.map fun p => ReportEvent.serviceStatus a p.1 p.2 true, true) := by
  induction l with
  | nil => rfl
  | cons hd tl ih =>
    cases hd with
    | mk n st => simp [publishServiceStatuses, ih]

/-- With no failure injected, the service-state publish loop publishes the
whole list, in order, successfully, and completes. -/
theorem publishServiceStates_nilOks (a : String)
    (l : List (String × SetDeviceServiceStateRequest)) :
    publishServiceStates a l [] =
      (l.map fun p => ReportEvent.serviceState a p.1 p.2 true, true) := by
  induction l with
  | nil => rfl
  | cons hd tl ih =>
    cases hd with
    | mk n st => simp [publishServiceStates, ih]

/-- The events of a service-status tick are exactly the events of its
publish loop over the diff. -/
theorem serviceStatusTick_events (r : Reporter) (oks : List Bool) :
    (serviceStatusTick r oks).2 =
      (publishServiceStatuses r.applicationID (serviceStatusDiff r) oks).1 := by
  unfold serviceStatusTick
  cases hp : publishServiceStatuses r.applicationID (serviceStatusDiff r) oks with
  | mk evs comp => cases comp <;> simp [hp]

/-- The events of a service-state tick are exactly the events of its
publish loop over the diff. -/
theorem serviceStateTick_events (r : Reporter) (oks : List Bool) :
    (serviceStateTick r oks).2 =
      (publishServiceStates r.applicationID (serviceStateDiff r) oks).1 := by
  unfold serviceStateTick
  cases hp : publishServiceStates r.applicationID (serviceStateDiff r) oks with
  | mk evs comp => cases comp <;> simp [hp]

/-- The service-status tick commits the snapshot exactly when its publish
loop ran to completion. -/
theorem serviceStatusTick_commit (r : Reporter) (oks : List Bool) :
    (serviceStatusTick r oks).1 =
      if (publishServiceStatuses r.applicationID (serviceStatusDiff r) oks).2 then
        { r with reportedServiceStatuses := r.serviceStatuses }
      else r := by
  unfold serviceStatusTick
  cases hp : publishServiceStatuses r.applicationID (serviceStatusDiff r) oks with
  | mk evs comp => cases comp <;> simp [hp]

/-- The service-state tick commits the snapshot exactly when its publish
loop ran to completion. -/
theorem serviceStateTick_commit (r : Reporter) (oks : List Bool) :
    (serviceStateTick r oks).1 =
      if (publishServiceStates r.applicationID (serviceStateDiff r) oks).2 then
        { r with reportedServiceStates := r.serviceStates }
      else r := by
  unfold serviceStateTick
  cases hp : publishServiceStates r.applicationID (serviceStateDiff r) oks with
  | mk evs comp => cases comp <;> simp [hp]

/-- Counterexample for C3: a sweep in which the first publish fails leaves
reportedServiceStatuses untouched — the later service b is not marked
reported, contradicting the claim that the snapshot commit happens at the
end of every sweep including ones escaped via goto cont. -/
theorem sweepCommit_after_failure_counterexample :
    (serviceStatusTick svcReporterExample [false]).2 =
      [ReportEvent.serviceStatus "a1" "a" { CurrentReleaseID := "R1" } false]
    ∧ mapLookup
        (serviceStatusTick svcReporterExample [false]).1.reportedServiceStatuses
        "b" = none
    ∧ (serviceStatusTick svcReporterExample [false]).1.reportedServiceStatuses ≠
      svcReporterExample.serviceStatuses := by
  decide

/-- Claim C3, amended: the commit of the snapshot is performed only at the
end of sweeps whose publish loop ran to completion; when a mid-sweep
publish fails, the goto cont escape skips the commit, leaving the reported
map — and the whole reporter state — unchanged, so no service is marked
reported by a failed sweep.  Likewise for the service-state loop. -/
theorem reporterSweep_commit_only_on_complete (r : Reporter) (oks : List Bool) :
    ((publishServiceStatuses r.applicationID (serviceStatusDiff r) oks).2 = true →
      (serviceStatusTick r oks).1 =
        { r with reportedServiceStatuses := r.serviceStatuses })
    ∧ ((publishServiceStatuses r.applicationID (serviceStatusDiff r) oks).2 = false →
      (serviceStatusTick r oks).1 = r)
    ∧ ((publishServiceStates r.applicationID (serviceStateDiff r) oks).2 = true →
      (serviceStateTick r oks).1 =
        { r with reportedServiceStates := r.serviceStates })
    ∧ ((publishServiceStates r.applicationID (serviceStateDiff r) oks).2 = false →
      (serviceStateTick r oks).1 = r) := by
  refine ⟨?_, ?_, ?_, ?_⟩ <;> intro h
  · rw [serviceStatusTick_commit, h]
    simp
  · rw [serviceStatusTick_commit, h]
    simp
  · rw [serviceStateTick_commit, h]
    simp
  · rw [serviceStateTick_commit, h]
    simp

/-- Witness for C3 (amended): at a concrete state, a fully successful sweep
commits the snapshot and a failed sweep leaves the state unchanged, for
both loops. -/
theorem reporterSweep_commit_only_on_complete_witness :
    (serviceStatusTick svcReporterExample []).1 =
      { svcReporterExample with
          reportedServiceStatuses := svcReporterExample.serviceStatuses }
    ∧ (serviceStatusTick svcReporterExample [false]).1 = svcReporterExample
    ∧ (serviceStateTick svcReporterExample []).1 =
      { svcReporterExample with
          reportedServiceStates := svcReporterExample.serviceStates }
    ∧ (serviceStateTick svcReporterExample [false]).1 = svcReporterExample := by
  refine ⟨?_, ?_, ?_, ?_⟩
  · exact (reporterSweep_commit_only_on_complete svcReporterExample []).1
      (by decide)
  · exact (reporterSweep_commit_only_on_complete svcReporterExample [false]).2.1
      (by decide)
  · exact (reporterSweep_commit_only_on_complete svcReporterExample []).2.2.1
      (by decide)
  · exact (reporterSweep_commit_only_on_complete svcReporterExample [false]).2.2.2
      (by decide)

/-- Claim C6: the service-status diff contains exactly the observed
statuses whose name is absent from reportedServiceStatuses or whose
CurrentReleaseID differs from the reported one; a failure-free sweep
publishes exactly the diff in order; every publication of a sweep is of a
diff member; and the committed copy is the full snapshot of
serviceStatuses. -/
theorem serviceStatusReporter_diff_correct (r : Reporter) :
    (∀ n st, (n, st) ∈ serviceStatusDiff r ↔
      ((n, st) ∈ r.serviceStatuses ∧
        (mapLookup r.reportedServiceStatuses n = none ∨
          ∃ rep, mapLookup r.reportedServiceStatuses n = some rep ∧
            rep.CurrentReleaseID ≠ st.CurrentReleaseID)))
    ∧ ((serviceStatusTick r []).2 =
      (serviceStatusDiff r).map fun p =>
        ReportEvent.serviceStatus r.applicationID p.1 p.2 true)
    ∧ (∀ oks e, e ∈ (serviceStatusTick r oks).2 →
      ∃ p ∈ serviceStatusDiff r, ∃ ok,
        e = ReportEvent.serviceStatus r.applicationID p.1 p.2 ok)
    ∧ (serviceStatusTick r []).1.reportedServiceStatuses = r.serviceStatuses := by
  refine ⟨?_, ?_, ?_, ?_⟩
  · intro n st
    unfold serviceStatusDiff
    rw [List.mem_filter]
    cases hl : mapLookup r.reportedServiceStatuses n with
    | none => simp [hl]
    | some rep => simp [hl, bne_iff_ne]
  · rw [serviceStatusTick_events, publishServiceStatuses_nilOks]
  · intro oks e h
    rw [serviceStatusTick_events] at h
    exact publishServiceStatuses_mem h
  · rw [serviceStatusTick_commit, publishServiceStatuses_nilOks]
    simp

/-- Witness for C6: the failed publication of service a in a concrete sweep
is the publication of a diff member. -/
theorem serviceStatusReporter_diff_correct_witness :
    ∃ p ∈ serviceStatusDiff svcReporterExample, ∃ ok,
      ReportEvent.serviceStatus "a1" "a" { CurrentReleaseID := "R1" } false =
        ReportEvent.serviceStatus svcReporterExample.applicationID p.1 p.2 ok :=
  (serviceStatusReporter_diff_correct svcReporterExample).2.2.1 [false]
    (ReportEvent.serviceStatus "a1" "a" { CurrentReleaseID := "R1" } false)
    (by decide)

/-- Counterexample for C2: in the interleaving quorumTrace the reporter
issues a successful application-status publication for R1 while no
service-status publication — successful or not — has ever been issued. -/
theorem applicationStatus_before_serviceStatus_counterexample :
    (reporterRun (NewReporter "a1") quorumTrace).2 =
      [ReportEvent.applicationStatus "a1" "R1" true]
    ∧ ∀ e ∈ (reporterRun (NewReporter "a1") quorumTrace).2,
        isSuccessfulServiceStatusPublication e = false := by
  decide

/-- Claim C2, amended: in any interleaving step, an application-status
publication carrying R is issued only when every name in the desired
service set has an observed serviceStatuses entry with CurrentReleaseID
equal to R (as installed by SetServiceStatus) and R is not yet reported;
completed service-status publications carrying R are not required first —
the gate reads the observed statuses, not the publication history. -/
theorem reporterStep_applicationStatus_observed (r : Reporter)
    (act : ReporterAction) (a R : String) (ok : Bool)
    (h : ReportEvent.applicationStatus a R ok ∈ (reporterStep r act).2) :
    R = r.desiredApplicationRelease ∧ R ≠ r.reportedApplicationRelease ∧
      ∀ name ∈ r.desiredApplicationServiceNames,
        ∃ status, mapLookup r.serviceStatuses name = some status ∧
          status.CurrentReleaseID = R := by
  cases act with
  | setDesiredApplication release cfg => simp [reporterStep] at h
  | setServiceStatus n s => simp [reporterStep] at h
  | setServiceState n s => simp [reporterStep] at h
  | appStatusTick p =>
    have h' : ReportEvent.applicationStatus a R ok ∈
        (applicationStatusTick r p).2 := h
    obtain ⟨-, hR, hne, hgate⟩ := applicationStatusTick_mem h'
    subst hR
    exact ⟨rfl, hne, (applicationStatusGate_iff r).1 hgate⟩
  | svcStatusTick oks =>
    have h' : ReportEvent.applicationStatus a R ok ∈
        (serviceStatusTick r oks).2 := h
    rw [serviceStatusTick_events] at h'
    obtain ⟨p, hp, ok2, he⟩ := publishServiceStatuses_mem h'
    exact ReportEvent.noConfusion he
  | svcStateTick oks =>
    have h' : ReportEvent.applicationStatus a R ok ∈
        (serviceStateTick r oks).2 := h
    rw [serviceStateTick_events] at h'
    obtain ⟨p, hp, ok2, he⟩ := publishServiceStates_mem h'
    exact ReportEvent.noConfusion he

/-- Witness for C2 (amended): the theorem applied to the concrete
gate-satisfying state and the application-status tick. -/
theorem reporterStep_applicationStatus_observed_witness :
    "R1" = gateReporterExample.desiredApplicationRelease ∧
      "R1" ≠ gateReporterExample.reportedApplicationRelease ∧
      ∀ name ∈ gateReporterExample.desiredApplicationServiceNames,
        ∃ status,
          mapLookup gateReporterExample.serviceStatuses name = some status ∧
            status.CurrentReleaseID = "R1" :=
  reporterStep_applicationStatus_observed gateReporterExample
    (ReporterAction.appStatusTick true) "a1" "R1" true (by decide)

/-- Claim C9: when GetDisableCustomCommands is true and the service has a
non-empty command or a non-empty entrypoint, Validate returns exactly the
error "custom commands are disabled on this device"; when the toggle is
false, or both command and entrypoint are empty, Validate returns nil. -/
theorem customcommands_Validate_spec (i : customcommands.Validator) (s : Service) :
    (i.vars.GetDisableCustomCommands = true →
      s.Command ≠ [] ∨ s.Entrypoint ≠ [] →
      i.Validate s = some customcommands.ErrCustomCommandsAreDisabled)
    ∧ (i.vars.GetDisableCustomCommands = false → i.Validate s = none)
    ∧ (s.Command = [] → s.Entrypoint = [] → i.Validate s = none) := by
  unfold customcommands.Validator.Validate
  refine ⟨?_, ?_, ?_⟩
  · intro hvar hne
    simp [hvar]
    intro hc
    rcases hne with h | h
    · exact absurd hc h
    · exact h
  · intro hvar
    simp [hvar]
  · intro h1 h2
    simp [h1, h2]

/-- Witness for C9: the three cases of the theorem at concrete specs. -/
theorem customcommands_Validate_spec_witness :
    customcommands.Validator.Validate ⟨⟨true⟩⟩ ⟨"alpine", ["sh"], []⟩ =
      some customcommands.ErrCustomCommandsAreDisabled
    ∧ customcommands.Validator.Validate ⟨⟨false⟩⟩ ⟨"alpine", ["sh"], []⟩ = none
    ∧ customcommands.Validator.Validate ⟨⟨true⟩⟩ ⟨"alpine", [], []⟩ = none := by
  refine ⟨?_, ?_, ?_⟩
  · exact (customcommands_Validate_spec ⟨⟨true⟩⟩ ⟨"alpine", ["sh"], []⟩).1 rfl
      (Or.inl (by decide))
  · exact (customcommands_Validate_spec ⟨⟨false⟩⟩ ⟨"alpine", ["sh"], []⟩).2.1 rfl
  · exact (customcommands_Validate_spec ⟨⟨true⟩⟩ ⟨"alpine", [], []⟩).2.2 rfl rfl

/-- Claim C4: if the payload fails the full-Bundle parse but its minimal
projection parses to v, mergeBundle of a non-nil previous bundle returns the
previous bundle with only DesiredAgentVersion replaced by v; if the payload
parses as a full Bundle, the result is that parsed bundle regardless of the
previous one. -/
theorem mergeBundle_spec (oldBundle : Option Bundle) (bundleBytes : BundleBytes) :
    (∀ v old, oldBundle = some old → bundleBytes.fullParse = none →
      bundleBytes.minimalParse = some v →
      mergeBundle oldBundle bundleBytes = some { old with DesiredAgentVersion := v })
    ∧ (∀ b, bundleBytes.fullParse = some b →
      mergeBundle oldBundle bundleBytes = some b) := by
  constructor
  · intro v old hold hfull hmin
    simp [mergeBundle, hold, hfull, hmin]
  · intro b hfull
    simp [mergeBundle, hfull]

/-- Witness for C4: a minimal-only payload preserves the two applications of
the previous bundle while updating the version, and a full parse replaces
the previous bundle entirely. -/
theorem mergeBundle_spec_witness :
    mergeBundle
        (some { Applications := [{ ID := "A" }, { ID := "B" }],
                DesiredAgentVersion := "1.0.0" })
        { fullParse := none, minimalParse := some "9.9.9" } =
      some { Applications := [{ ID := "A" }, { ID := "B" }],
             DesiredAgentVersion := "9.9.9" }
    ∧ mergeBundle
        (some { Applications := [{ ID := "A" }], DesiredAgentVersion := "1.0.0" })
        { fullParse := some { Applications := [{ ID := "C" }],
                              DesiredAgentVersion := "2.0" },
          minimalParse := some "2.0" } =
      some { Applications := [{ ID := "C" }], DesiredAgentVersion := "2.0" } := by
  constructor
  · exact (mergeBundle_spec _ _).1 "9.9.9" _ rfl rfl rfl
  · exact (mergeBundle_spec _ _).2 _ rfl

/-- Claim C8: in every bundle-applier cycle, the downstream dispatches are
exactly Supervisor.Set, then statusGarbageCollector.SetBundle, then
updater.SetDesiredVersion, then metricsPusher.SetBundle of the accepted
bundle when one is accepted, and nothing otherwise; in particular the
garbage collector is never handed a bundle before the supervisor. -/
theorem runBundleApplierCycle_dispatch_order (bundle : Option Bundle)
    (input : CycleInput) (file : BundleFile) :
    (runBundleApplierCycle bundle input file).2.2 =
      match (runBundleApplierCycle bundle input file).1 with
      | some b =>
        [AgentEvent.supervisorSet b,
         AgentEvent.garbageCollectorSetBundle b,
         AgentEvent.updaterSetDesiredVersion b.DesiredAgentVersion,
         AgentEvent.metricsPusherSetBundle b]
      | none => [] := by
  cases hdl : downloadLatestBundle bundle input file with
  | mk nb nf => cases nb <;> simp [runBundleApplierCycle, hdl]

/-- Claim C10: whenever downloadLatestBundle returns nil — network error,
both parses failing, or a write error — the loop's bundle variable becomes
nil, so the last accepted bundle is not used as oldBundle on later cycles;
consequently a subsequent payload parseable only as the minimal projection
yields a bundle with no applications. -/
theorem runBundleApplier_failedCycle_drops_lastKnownGood
    (bundle : Option Bundle) (input : CycleInput) (file : BundleFile) :
    ((downloadLatestBundle bundle input file).1 = none →
      (runBundleApplierCycle bundle input file).1 = none)
    ∧ (input.getBundleBytes = none →
      (runBundleApplierCycle bundle input file).1 = none)
    ∧ (∀ bb, input.getBundleBytes = some bb → bb.fullParse = none →
      bb.minimalParse = none → (runBundleApplierCycle bundle input file).1 = none)
    ∧ (input.writeOk = false →
      (runBundleApplierCycle bundle input file).1 = none)
    ∧ (∀ bb v, input.getBundleBytes = some bb → bb.fullParse = none →
      bb.minimalParse = some v → input.writeOk = true →
      (runBundleApplierCycle none input file).1 =
        some { Applications := [], DesiredAgentVersion := v }) := by
  refine ⟨?_, ?_, ?_, ?_, ?_⟩
  · intro h
    cases hdl : downloadLatestBundle bundle input file with
    | mk nb nf =>
      rw [hdl] at h
      simp only at h
      subst h
      simp [runBundleApplierCycle, hdl]
  · intro h
    simp [runBundleApplierCycle, downloadLatestBundle, h]
  · intro bb hget hfull hmin
    cases hw : input.writeOk <;>
      simp [runBundleApplierCycle, downloadLatestBundle, mergeBundle,
        hget, hfull, hmin, hw]
  · intro hw
    cases hget : input.getBundleBytes <;>
      simp [runBundleApplierCycle, downloadLatestBundle, hget, hw]
  · intro bb v hget hfull hmin hw
    simp [runBundleApplierCycle, downloadLatestBundle, mergeBundle, zeroBundle,
      hget, hfull, hmin, hw]

/-- Witness for C10: a failed cycle (network error) yields a nil bundle
variable, and from a nil variable a minimal-only payload yields a bundle
with an empty application list. -/
theorem runBundleApplier_failedCycle_drops_lastKnownGood_witness :
    (runBundleApplierCycle
        (some { Applications := [{ ID := "A" }], DesiredAgentVersion := "1.0" })
        { getBundleBytes := none, writeOk := true }
        (BundleFile.holds (some { Applications := [{ ID := "A" }],
                                  DesiredAgentVersion := "1.0" }))).1 = none
    ∧ (runBundleApplierCycle none
        { getBundleBytes := some { fullParse := none, minimalParse := some "9.9.9" },
          writeOk := true }
        (BundleFile.holds (some { Applications := [{ ID := "A" }],
                                  DesiredAgentVersion := "1.0" }))).1 =
      some { Applications := [], DesiredAgentVersion := "9.9.9" } := by
  constructor
  · exact (runBundleApplier_failedCycle_drops_lastKnownGood
      (some { Applications := [{ ID := "A" }], DesiredAgentVersion := "1.0" })
      { getBundleBytes := none, writeOk := true }
      (BundleFile.holds (some { Applications := [{ ID := "A" }],
                                DesiredAgentVersion := "1.0" }))).2.1 rfl
  · exact (runBundleApplier_failedCycle_drops_lastKnownGood none
      { getBundleBytes := some { fullParse := none, minimalParse := some "9.9.9" },
        writeOk := true }
      (BundleFile.holds (some { Applications := [{ ID := "A" }],
                                DesiredAgentVersion := "1.0" }))).2.2.2.2
      { fullParse := none, minimalParse := some "9.9.9" } "9.9.9" rfl rfl rfl rfl

/-- Counterexample for C5: with a previous bundle on disk, a cycle whose
payload fails both parses overwrites the bundle file with the serialization
of the nil bundle (the JSON text null) instead of leaving the previous
bundle JSON in place. -/
theorem bothParsesFail_overwrites_file_counterexample :
    (runBundleApplierCycle
        (some { Applications := [{ ID := "A" }], DesiredAgentVersion := "1.0" })
        { getBundleBytes := some { fullParse := none, minimalParse := none },
          writeOk := true }
        (BundleFile.holds (some { Applications := [{ ID := "A" }],
                                  DesiredAgentVersion := "1.0" }))).2.1 =
      BundleFile.holds none
    ∧ BundleFile.holds (none : Option Bundle) ≠
      BundleFile.holds (some { Applications := [{ ID := "A" }],
                               DesiredAgentVersion := "1.0" }) := by
  exact ⟨rfl, by decide⟩

/-- Claim C5, amended: when both parses fail the cycle propagates nothing
downstream and the loop variable becomes nil; however, when the atomic
write succeeds the on-disk bundle file is overwritten with the
serialization of the nil merge result (the JSON text null) rather than
retaining the previous bundle JSON; only when the write itself fails does
the file keep its previous contents. -/
theorem bothParsesFail_drops_cycle (bundle : Option Bundle) (input : CycleInput)
    (file : BundleFile) (bb : BundleBytes) (hget : input.getBundleBytes = some bb)
    (hfull : bb.fullParse = none) (hmin : bb.minimalParse = none) :
    (runBundleApplierCycle bundle input file).2.2 = []
    ∧ (runBundleApplierCycle bundle input file).1 = none
    ∧ (input.writeOk = true →
      (runBundleApplierCycle bundle input file).2.1 = BundleFile.holds none)
    ∧ (input.writeOk = false →
      (runBundleApplierCycle bundle input file).2.1 = file) := by
  cases hw : input.writeOk <;>
    simp [runBundleApplierCycle, downloadLatestBundle, mergeBundle,
      hget, hfull, hmin, hw]

/-- Witness for C5 (amended): a concrete both-parses-fail cycle dispatches
nothing and leaves the file holding the nil serialization. -/
theorem bothParsesFail_drops_cycle_witness :
    (runBundleApplierCycle
        (some { Applications := [{ ID := "A" }], DesiredAgentVersion := "1.0" })
        { getBundleBytes := some { fullParse := none, minimalParse := none },
          writeOk := true }
        (BundleFile.holds (some { Applications := [{ ID := "A" }],
                                  DesiredAgentVersion := "1.0" }))).2.2 = []
    ∧ (runBundleApplierCycle
        (some { Applications := [{ ID := "A" }], DesiredAgentVersion := "1.0" })
        { getBundleBytes := some { fullParse := none, minimalParse := none },
          writeOk := true }
        (BundleFile.holds (some { Applications := [{ ID := "A" }],
                                  DesiredAgentVersion := "1.0" }))).2.1 =
      BundleFile.holds none := by
  have h := bothParsesFail_drops_cycle
    (some { Applications := [{ ID := "A" }], DesiredAgentVersion := "1.0" })
    { getBundleBytes := some { fullParse := none, minimalParse := none },
      writeOk := true }
    (BundleFile.holds (some { Applications := [{ ID := "A" }],
                              DesiredAgentVersion := "1.0" }))
    { fullParse := none, minimalParse := none } rfl rfl rfl
  exact ⟨h.1, h.2.2.1 rfl⟩

/-- Claim C7: when the access-key file exists, Initialize performs no
RegisterDevice call and installs the exact contents of the access-key and
device-id files via SetAccessKey and SetDeviceID; when it does not exist,
Initialize calls RegisterDevice with the registration token under a
one-minute deadline and, on success, persists the returned access key and
device id to the two files before loading and installing them. -/
theorem Agent_Initialize_spec (files : CredentialFiles)
    (registrationToken : String)
    (registerResult : Option RegisterDeviceResponse) :
    (∀ k d, files.accessKeyFile = some k → files.deviceIDFile = some d →
      Agent.Initialize files registrationToken registerResult =
        Except.ok (files, [InitEvent.setAccessKey k, InitEvent.setDeviceID d]))
    ∧ (∀ resp, files.accessKeyFile = none → registerResult = some resp →
      Agent.Initialize files registrationToken registerResult =
        Except.ok
          ({ files with
              accessKeyFile := some resp.DeviceAccessKeyValue
              deviceIDFile := some resp.DeviceID },
           [InitEvent.registerDevice registrationToken timeMinute,
            InitEvent.setAccessKey resp.DeviceAccessKeyValue,
            InitEvent.setDeviceID resp.DeviceID])) := by
  constructor
  · intro k d hk hd
    simp [Agent.Initialize, hk, hd]
  · intro resp h0 hr
    simp [Agent.Initialize, Agent.register, h0, hr]

/-- Witness for C7: an already-registered device installs the stored
credentials without registering, and a fresh device registers with the
token and persists then installs the returned credentials. -/
theorem Agent_Initialize_spec_witness :
    Agent.Initialize
        { accessKeyFile := some "k1", deviceIDFile := some "d1" } "TKN"
        none =
      Except.ok
        ({ accessKeyFile := some "k1", deviceIDFile := some "d1" },
         [InitEvent.setAccessKey "k1", InitEvent.setDeviceID "d1"])
    ∧ Agent.Initialize
        { accessKeyFile := none, deviceIDFile := none } "TKN"
        (some { DeviceID := "d1", DeviceAccessKeyValue := "k1" }) =
      Except.ok
        ({ accessKeyFile := some "k1", deviceIDFile := some "d1" },
         [InitEvent.registerDevice "TKN" timeMinute,
          InitEvent.setAccessKey "k1", InitEvent.setDeviceID "d1"]) := by
  constructor
  · exact (Agent_Initialize_spec
      { accessKeyFile := some "k1", deviceIDFile := some "d1" } "TKN" none).1
      "k1" "d1" rfl rfl
  · exact (Agent_Initialize_spec
      { accessKeyFile := none, deviceIDFile := none } "TKN"
      (some { DeviceID := "d1", DeviceAccessKeyValue := "k1" })).2
      { DeviceID := "d1", DeviceAccessKeyValue := "k1" } rfl rfl

end Deviceplane
